import Mathlib

/-!
Verification development for the iiko monitoring bot's metrics core.

Shallow embedding of:
- `IikoClient.get_sales_metrics` (src/iiko/client.py, order reconstruction,
  revenue/cost aggregation, food-cost percentage),
- `IikoClient.get_detailed_foodcost` (per-dish/category/group breakdown),
- `IikoClient._make_request` (bounded retry loop and status-code handling),
- `AnalyticsService.get_metrics` / `get_period_metrics` (TTL cache),
- `AnalyticsService.compare_periods` / `compare_with_yesterday`.

Python floats are modelled as rationals (ℚ); Python `None` and JSON null as
an explicit `Val.null`; a dict row as an association list from field name to
value.  Network traffic is abstracted as explicit parameters (the rows or
responses the external API would deliver); everything computed from those
inputs is translated from the source.
-/

/-- A JSON scalar / Python value as it appears in a parsed report row:
a string, a numeric value (int/float, modelled as ℚ), or null/None. -/
inductive Val where
  | str (s : String)
  | num (q : ℚ)
  | null
  deriving DecidableEq

/-- A raw report row: a Python dict from field name to value
(association list; keys are unique in every row the API produces). -/
abbrev Row := List (String × Val)

/-- Association-list lookup (Python `dict[k]` presence included):
`none` means the key is absent. -/
def getField? : Row → String → Option Val
  | [], _ => none
  | (k', v) :: rest, k => if k' = k then some v else getField? rest k

/-- Python `item.get(k)`: absent key and stored `None` both give `None`. -/
def getPy (r : Row) (k : String) : Val :=
  (getField? r k).getD .null

/-- Python truthiness of a value: `None`, `0` and `""` are falsy. -/
def pyTruthy : Val → Bool
  | .str s => s ≠ ""
  | .num q => q ≠ 0
  | .null => false

/-- Python `v or 0`. -/
def pyOrZero (v : Val) : Val :=
  if pyTruthy v then v else .num 0

/-- Digit run to a natural number. -/
def digitsVal (cs : List Char) : ℕ :=
  cs.foldl (fun n c => 10 * n + (c.toNat - 48)) 0

/-- Parse an unsigned decimal literal (digits, optionally with one dot),
the fragment of Python `float(str)` the report values use; exponents,
whitespace and inf/nan are not produced by the API and are not modelled. -/
def parseDec? (cs : List Char) : Option ℚ :=
  let intDigits := cs.takeWhile Char.isDigit
  let rest := cs.dropWhile Char.isDigit
  match rest with
  | [] => if intDigits.isEmpty then none else some (digitsVal intDigits)
  | '.' :: frac =>
    if frac.all Char.isDigit && !(intDigits.isEmpty && frac.isEmpty) then
      some ((digitsVal intDigits : ℚ) + (digitsVal frac : ℚ) / (10 : ℚ) ^ frac.length)
    else none
  | _ => none

/-- Python `float(s)` on a string, with an optional sign. -/
def parseFloat? (s : String) : Option ℚ :=
  match s.data with
  | '-' :: rest => (parseDec? rest).map (fun q => -q)
  | '+' :: rest => parseDec? rest
  | cs => parseDec? cs

/-- Python `float(v)`: numbers pass through, numeric strings parse,
everything else (including `None`) raises, modelled as `none`. -/
def pyFloat? : Val → Option ℚ
  | .num q => some q
  | .str s => parseFloat? s
  | .null => none

/-- Python `str(v)`.  `str(None) = "None"`; the rendering of a numeric
value is abstracted (the API delivers times as strings, never numbers). -/
def pyStr : Val → String
  | .str s => s
  | .num q => toString q
  | .null => "None"

/-! ### Generic dict accumulator

`orders_dict`, `dishes_dict`, `categories_dict` and `groups_dict` in the
source are all Python dicts built by `d[k] = f(d.get(k, init))`; new keys
are appended in insertion order.  `upsertA` is that update on an
association list, `accumA` the whole accumulation loop. -/

/-- Update the entry at `k` with `upd`, or append `(k, upd ini)` if absent. -/
def upsertA {κ β : Type} [DecidableEq κ] (k : κ) (upd : β → β) (ini : β) :
    List (κ × β) → List (κ × β)
  | [] => [(k, upd ini)]
  | (k', b) :: rest =>
    if k' = k then (k', upd b) :: rest else (k', b) :: upsertA k upd ini rest

/-- Association-list lookup by key. -/
def lookupA {κ β : Type} [DecidableEq κ] (k : κ) : List (κ × β) → Option β
  | [] => none
  | (k', b) :: rest => if k' = k then some b else lookupA k rest

/-- Fold a row list into a dict, per-item key / update / initial value. -/
def accumA {ι κ β : Type} [DecidableEq κ] (key : ι → κ) (upd : ι → β → β)
    (ini : ι → β) (data : List ι) : List (κ × β) :=
  data.foldl (fun acc it => upsertA (key it) (upd it) (ini it) acc) []

/-! ### `get_sales_metrics` : order reconstruction and revenue -/

/-- The order key `f"{open_time}_{close_time}"` built from
`str(item.get('OpenTime', ''))` and `str(item.get('CloseTime', ''))`. -/
def orderKey (item : Row) : String :=
  (match getField? item "OpenTime" with
   | none => ""
   | some v => pyStr v) ++ "_" ++
  (match getField? item "CloseTime" with
   | none => ""
   | some v => pyStr v)

/-- Per-row revenue: `DishDiscountSumInt` if present and non-null, else
`DishSumInt or 0`, coerced with `float(dish_sum or 0)`, `except → 0.0`. -/
def rowRevenue (item : Row) : ℚ :=
  let ds := getPy item "DishDiscountSumInt"
  let ds := match ds with
    | .null => pyOrZero (getPy item "DishSumInt")
    | v => v
  (pyFloat? (pyOrZero ds)).getD 0

/-- `orders_dict[order_key] = orders_dict.get(order_key, 0.0) + value`. -/
def bumpRevenue (it : Row) (x : ℚ) : ℚ :=
  x + rowRevenue it

/-- The `0.0` default of the `orders_dict` update. -/
def zeroRevenue (_ : Row) : ℚ :=
  0

/-- The `orders_dict` accumulation: key `orderKey`, running revenue sums. -/
def ordersDict (data : List Row) : List (String × ℚ) :=
  accumA orderKey bumpRevenue zeroRevenue data

/-! ### Cost-field selection and cost aggregation -/

/-- The fixed candidate cost-field names, in the source's priority order. -/
def costCandidates : List String :=
  ["ProductCostBase.ProductCost", "ProductCostBase.OneItem", "ProductCost", "Cost"]

/-- Keys of a row (Python `list(item.keys())`). -/
def keysOf (item : Row) : List String :=
  item.map Prod.fst

/-- First candidate cost field occurring in a key set (the scan over
`['ProductCostBase.ProductCost', 'ProductCostBase.OneItem', 'ProductCost', 'Cost']`,
run by `get_sales_metrics` against the first cost row's keys). -/
def findCostField (keys : List String) : Option String :=
  costCandidates.find? (fun f => decide (f ∈ keys))

/-- One row's contribution to the total cost for a fixed field `f`:
skip when `item.get(f)` is `None`, else `float(value)` with
failures swallowed (`except: pass`). -/
def costContrib (item : Row) (f : String) : ℚ :=
  match getField? item f with
  | none => 0
  | some .null => 0
  | some v => (pyFloat? v).getD 0

/-- Total cost aggregation of `get_sales_metrics`: the cost field is chosen
from the FIRST row's keys (`list(cost_data[0].keys())`), then that field is
summed over all rows. -/
def totalCost (costData : List Row) : ℚ :=
  match costData with
  | [] => 0
  | first :: _ =>
    match findCostField (keysOf first) with
    | none => 0
    | some f => (costData.map (fun it => costContrib it f)).sum

/-- Is `pat` a leading segment of `l`? (helper for substring search). -/
def leadsWith : List Char → List Char → Bool
  | [], _ => true
  | _ :: _, [] => false
  | p :: ps, c :: cs => p = c && leadsWith ps cs

/-- Substring search on character lists (Python `pat in s`). -/
def hasSub (pat : List Char) : List Char → Bool
  | [] => leadsWith pat []
  | c :: cs => leadsWith pat (c :: cs) || hasSub pat cs

/-- Lower-cased characters of a string (Python `s.lower()`). -/
def lowerStr (s : String) : List Char :=
  s.data.map Char.toLower

/-- The source's cost-looking-key test:
`'cost' in k.lower() or 'ProductCostBase' in k or 'Cost' in k`. -/
def costLike (k : String) : Bool :=
  hasSub "cost".data (lowerStr k) || hasSub "ProductCostBase".data k.data ||
    hasSub "Cost".data k.data

/-- Fallback of `get_sales_metrics`: if no cost rows were fetched but the
main SALES rows' first item has a cost-looking key, reuse the SALES rows
as cost data. -/
def fallbackCost (salesRows : List Row) : List Row :=
  match salesRows with
  | [] => []
  | first :: _ => if (keysOf first).any costLike then salesRows else []

/-- The cost rows `get_sales_metrics` finally aggregates: the rows fetched
by the cost-report strategies when non-empty, else the SALES fallback. -/
def effectiveCostData (salesRows : List Row) (fetched : Option (List Row)) : List Row :=
  match fetched with
  | some (it :: rest) => it :: rest
  | _ => fallbackCost salesRows

/-! ### `get_sales_metrics` top level -/

/-- The aggregated period metrics structure returned by `get_sales_metrics`. -/
structure Metrics where
  revenue : ℚ
  orders : ℕ
  average_check : ℚ
  food_cost : ℚ
  food_cost_pct : ℚ
  deriving DecidableEq

/-- The zeroed structure returned on any top-level failure. -/
def zeroMetrics : Metrics :=
  ⟨0, 0, 0, 0, 0⟩

/-- Body of `get_sales_metrics` up to its top-level `try`.
`salesResp` abstracts the SALES OLAP response: `none` when every attempt
failed or the response was falsy (the code then raises), `some none` for a
truthy response without a usable `data` list, `some (some rows)` for a
response with data rows.  `fetched` abstracts the rows produced by the
cost-report strategy chain (`none` when none succeeded). -/
def getSalesMetricsCore (salesResp : Option (Option (List Row)))
    (fetched : Option (List Row)) : Except String Metrics :=
  match salesResp with
  | none => .error "Failed to get sales data from OLAP response"
  | some dataOpt =>
    let rows := dataOpt.getD []
    let od := ordersDict rows
    let orders := od.length
    let revenue := (od.map Prod.snd).sum
    let total_cost := totalCost (effectiveCostData rows fetched)
    let avg_check := if 0 < orders then revenue / (orders : ℚ) else 0
    let food_cost_pct := if 0 < revenue then total_cost / revenue * 100 else 0
    .ok ⟨revenue, orders, avg_check, total_cost, food_cost_pct⟩

/-- `get_sales_metrics`: the top-level `except` maps any raised error to the
zeroed metrics structure. -/
def get_sales_metrics (salesResp : Option (Option (List Row)))
    (fetched : Option (List Row)) : Metrics :=
  match getSalesMetricsCore salesResp fetched with
  | .ok m => m
  | .error _ => zeroMetrics

/-! ### `get_detailed_foodcost` -/

/-- `item.get('DishName', 'Без названия')` (and the category/group twins):
absent key falls to the default, a stored null stays `None`. -/
def dishNameOf (item : Row) : Val :=
  (getField? item "DishName").getD (.str "Без названия")

/-- Category key with its default. -/
def dishCategoryOf (item : Row) : Val :=
  (getField? item "DishCategory").getD (.str "Без категории")

/-- Group key with its default. -/
def dishGroupOf (item : Row) : Val :=
  (getField? item "DishGroup").getD (.str "Без группы")

/-- Per-row cost of the detailed breakdown: scan the candidates per row and
take the first whose present, non-null value coerces with `float`;
a failing candidate falls through to the next one (`except: pass`, no break). -/
def scanCostVal (item : Row) : List String → ℚ
  | [] => 0
  | f :: fs =>
    match getField? item f with
    | none => scanCostVal item fs
    | some .null => scanCostVal item fs
    | some v =>
      match pyFloat? v with
      | some q => q
      | none => scanCostVal item fs

/-- The detailed per-row cost over the fixed candidate list. -/
def detailedRowCost (item : Row) : ℚ :=
  scanCostVal item costCandidates

/-- Per-row order count: `float(item.get('UniqOrderId.OrdersCount', 0) or 0)`
with failures coerced to 0. -/
def rowOrdersD (item : Row) : ℚ :=
  (pyFloat? (pyOrZero ((getField? item "UniqOrderId.OrdersCount").getD (.num 0)))).getD 0

/-- The (revenue, cost, orders) increments a row adds to its buckets. -/
def rowSums (item : Row) : ℚ × ℚ × ℚ :=
  (rowRevenue item, detailedRowCost item, rowOrdersD item)

/-- The `dishes_dict` update: keep the static category/group, add the sums. -/
def dishUpd (it : Row) (b : (Val × Val) × (ℚ × ℚ × ℚ)) : (Val × Val) × (ℚ × ℚ × ℚ) :=
  (b.1, b.2 + rowSums it)

/-- The fresh `dishes_dict` entry: category/group of the inserting row,
zeroed sums. -/
def dishIni (it : Row) : (Val × Val) × (ℚ × ℚ × ℚ) :=
  ((dishCategoryOf it, dishGroupOf it), 0)

/-- The `categories_dict`/`groups_dict` update: add the row's sums. -/
def bucketUpd (it : Row) (s : ℚ × ℚ × ℚ) : ℚ × ℚ × ℚ :=
  s + rowSums it

/-- The fresh bucket entry: zeroed sums. -/
def bucketIni (_ : Row) : ℚ × ℚ × ℚ :=
  0

/-- `dishes_dict` accumulation: keyed by dish name, static category/group
captured at first insertion, running (revenue, cost, orders) sums. -/
def accumDishes (data : List Row) : List (Val × ((Val × Val) × (ℚ × ℚ × ℚ))) :=
  accumA dishNameOf dishUpd dishIni data

/-- `categories_dict` accumulation. -/
def accumCats (data : List Row) : List (Val × (ℚ × ℚ × ℚ)) :=
  accumA dishCategoryOf bucketUpd bucketIni data

/-- `groups_dict` accumulation. -/
def accumGroups (data : List Row) : List (Val × (ℚ × ℚ × ℚ)) :=
  accumA dishGroupOf bucketUpd bucketIni data

/-- A dish entry of the detailed breakdown. -/
structure DishEntry where
  name : Val
  category : Val
  group : Val
  revenue : ℚ
  cost : ℚ
  orders : ℚ
  foodcost_pct : ℚ
  deriving DecidableEq

/-- A category or group entry of the detailed breakdown. -/
structure BucketEntry where
  name : Val
  revenue : ℚ
  cost : ℚ
  orders : ℚ
  foodcost_pct : ℚ
  deriving DecidableEq

/-- Build a dish entry from its accumulated sums, recomputing
`foodcost_pct` from the totals (it stays 0 unless revenue is positive). -/
def buildDish (p : Val × ((Val × Val) × (ℚ × ℚ × ℚ))) : DishEntry :=
  ⟨p.1, p.2.1.1, p.2.1.2, p.2.2.1, p.2.2.2.1, p.2.2.2.2,
    if 0 < p.2.2.1 then p.2.2.2.1 / p.2.2.1 * 100 else 0⟩

/-- Build a category/group entry from its accumulated sums. -/
def buildBucket (p : Val × (ℚ × ℚ × ℚ)) : BucketEntry :=
  ⟨p.1, p.2.1, p.2.2.1, p.2.2.2, if 0 < p.2.1 then p.2.2.1 / p.2.1 * 100 else 0⟩

/-- Python `sorted(..., key=lambda x: x["revenue"], reverse=True)` order. -/
def dishGE (a b : DishEntry) : Bool :=
  decide (b.revenue ≤ a.revenue)

/-- Descending revenue order on bucket entries. -/
def bucketGE (a b : BucketEntry) : Bool :=
  decide (b.revenue ≤ a.revenue)

/-- The detailed breakdown result structure. -/
structure DetailedResult where
  by_dishes : List DishEntry
  by_categories : List BucketEntry
  by_groups : List BucketEntry
  total_revenue : ℚ
  total_cost : ℚ
  avg_foodcost_pct : ℚ
  deriving DecidableEq

/-- The empty breakdown returned when no data is available. -/
def emptyDetailed : DetailedResult :=
  ⟨[], [], [], 0, 0, 0⟩

/-- Aggregation loop of `get_detailed_foodcost` over the response rows:
accumulate the three dictionaries and the running totals, recompute each
entry's percentage from its totals, sort each collection by revenue
descending (Python's stable sort, modelled by `mergeSort`). -/
def processDetailed (data : List Row) : DetailedResult :=
  let total_revenue := (data.map rowRevenue).sum
  let total_cost := (data.map detailedRowCost).sum
  { by_dishes := ((accumDishes data).map buildDish).mergeSort dishGE
    by_categories := ((accumCats data).map buildBucket).mergeSort bucketGE
    by_groups := ((accumGroups data).map buildBucket).mergeSort bucketGE
    total_revenue := total_revenue
    total_cost := total_cost
    avg_foodcost_pct :=
      if 0 < total_revenue then total_cost / total_revenue * 100 else 0 }

/-- `get_detailed_foodcost`: `none` abstracts every failure shape (request
failed, response not a dict, no `data` key) and, like an empty data list,
yields the empty breakdown. -/
def get_detailed_foodcost (resp : Option (List Row)) : DetailedResult :=
  match resp with
  | none => emptyDetailed
  | some [] => emptyDetailed
  | some (it :: rest) => processDetailed (it :: rest)

/-! ### `_make_request` retry loop -/

/-- A response body as the client sees it. -/
inductive Body (α : Type) where
  | empty
  | json (a : α)
  | notJson
  deriving DecidableEq

/-- One HTTP exchange outcome: a status response or a transport failure. -/
inductive HttpResp (α : Type) where
  | resp (status : ℕ) (body : Body α)
  | netFail
  deriving DecidableEq

/-- Errors `_make_request` can propagate to its caller. -/
inductive ReqError where
  | badRequest
  | httpStatus (code : ℕ)
  | network
  deriving DecidableEq

/-- Result of `_make_request`: a returned dict (`none` = the empty dict
`{}`), a propagated exception, or Python's implicit `None` when the loop
ends after a 401 on the final attempt. -/
inductive ReqOutcome (α : Type) where
  | value (v : Option α)
  | raised (e : ReqError)
  | loopEnd
  deriving DecidableEq

/-- Per-attempt classification of a response inside the retry loop. -/
inductive StepClass (α : Type) where
  | finish (v : Option α)
  | auth401
  | failed (e : ReqError)
  | serverErr (code : ℕ)

/-- The status-code dispatch of `_make_request`: 401 refreshes the token and
continues; 400 raises (caught by the generic handler); 409 returns `{}`;
5xx retries (raising on the final attempt); any other non-2xx raises via
`raise_for_status`; a 2xx body parses to a dict, with empty or non-JSON
bodies returned as `{}`. -/
def classify {α : Type} : HttpResp α → StepClass α
  | .netFail => .failed .network
  | .resp status body =>
    if status = 401 then .auth401
    else if status = 400 then .failed .badRequest
    else if status = 409 then .finish none
    else if 500 ≤ status then .serverErr status
    else if status < 200 ∨ 300 ≤ status then .failed (.httpStatus status)
    else
      match body with
      | .empty => .finish none
      | .json a => .finish (some a)
      | .notJson => .finish none

/-- The retry loop of `_make_request`.  `env i` is the response to the
`i`-th issued request (token handling abstracted); the result carries the
number of requests issued.  `fuel` counts remaining loop iterations
(3 at the start); `fuel = 0` inside an iteration marks the final attempt,
whose caught exception is re-raised. -/
def makeRequestGo {α : Type} (env : ℕ → HttpResp α) : ℕ → ℕ → ReqOutcome α × ℕ
  | 0, _ => (.loopEnd, 0)
  | fuel + 1, i =>
    match classify (env i) with
    | .finish v => (.value v, 1)
    | .auth401 =>
      let r := makeRequestGo env fuel (i + 1)
      (r.1, r.2 + 1)
    | .failed e =>
      if fuel = 0 then (.raised e, 1)
      else
        let r := makeRequestGo env fuel (i + 1)
        (r.1, r.2 + 1)
    | .serverErr code =>
      if fuel = 0 then (.raised (.httpStatus code), 1)
      else
        let r := makeRequestGo env fuel (i + 1)
        (r.1, r.2 + 1)

/-- `_make_request` with its 3-attempt budget. -/
def make_request {α : Type} (env : ℕ → HttpResp α) : ReqOutcome α × ℕ :=
  makeRequestGo env 3 0

/-- The status code of a response, if any. -/
def respStatus? {α : Type} : HttpResp α → Option ℕ
  | .resp s _ => some s
  | .netFail => none

/-! ### `AnalyticsService`: cache and post-processing -/

/-- Python `a or b` on numbers (used by `get_metrics` defaulting). -/
def pyOrQ (x y : ℚ) : ℚ :=
  if x = 0 then y else x

/-- Python `a or b` on integer counters. -/
def pyOrNat (x y : ℕ) : ℕ :=
  if x = 0 then y else x

/-- The defaulting and recomputation `get_metrics` applies to the client's
metrics dict (`revenue or totalRevenue or 0` where `totalRevenue` is never a
key of the client's dict, hence defaults to 0, and so on; `average_check`
is recomputed). -/
def postProcess (m : Metrics) : Metrics :=
  let revenue := pyOrQ (pyOrQ m.revenue 0) 0
  let orders := pyOrNat (pyOrNat m.orders 0) 0
  let avg_check := if 0 < orders then revenue / (orders : ℚ) else 0
  let food_cost := pyOrQ m.food_cost 0
  let food_cost_pct := pyOrQ m.food_cost_pct 0
  ⟨revenue, orders, avg_check, food_cost, food_cost_pct⟩

/-- Abstract rendering of Python `str(org_ids) if org_ids else 'all'`
(an empty list is falsy; the exact repr of a non-empty list is abstracted
as a bracketed join, injective on the ids the bot uses). -/
def orgKeyOf : Option (List String) → String
  | none => "all"
  | some [] => "all"
  | some (s :: rest) => "[" ++ String.intercalate ", " (s :: rest) ++ "]"

/-- The composite cache key `f"{date_from}_{date_to}_{...}"`. -/
def cacheKeyOf (dateFrom dateTo : String) (orgIds : Option (List String)) : String :=
  dateFrom ++ "_" ++ dateTo ++ "_" ++ orgKeyOf orgIds

/-- `_is_cache_valid`: `(now - cache_time).total_seconds() < 300`. -/
def is_cache_valid (now cacheTime : ℚ) : Bool :=
  decide (now - cacheTime < 300)

/-- The service cache: key to (stored metrics dict, fetch time). -/
abbrev Cache := List (String × (Metrics × ℚ))

/-- Python `del cache[k]` (dict keys are unique, so removing every binding
of `k` coincides with deleting its single entry). -/
def eraseKey (c : Cache) (k : String) : Cache :=
  match c with
  | [] => []
  | (k0, e) :: tl => if k0 = k then eraseKey tl k else (k0, e) :: eraseKey tl k

/-- The cache lookup step of `get_metrics`: a present, valid entry is a hit;
a present, expired entry is deleted and reported as a miss; an absent key
is a miss. -/
def cacheGet (c : Cache) (k : String) (now : ℚ) : Option Metrics × Cache :=
  match lookupA k c with
  | some (v, t) => if is_cache_valid now t then (some v, c) else (none, eraseKey c k)
  | none => (none, c)

/-- Python dict assignment `cache[k] = (m, now)`. -/
def cacheStore (c : Cache) (k : String) (m : Metrics) (now : ℚ) : Cache :=
  upsertA k (fun _ => (m, now)) (m, now) c

/-- `AnalyticsService.get_metrics` as a state transition.  `clientMetrics`
abstracts what `iiko_client.get_sales_metrics` would return if called; the
third component counts how many external report queries were issued. -/
def get_metrics (c : Cache) (now : ℚ) (dateFrom dateTo : String)
    (orgIds : Option (List String)) (useCache : Bool) (clientMetrics : Metrics) :
    Metrics × Cache × ℕ :=
  let key := cacheKeyOf dateFrom dateTo orgIds
  if useCache then
    match cacheGet c key now with
    | (some v, c1) => (v, c1, 0)
    | (none, c1) =>
      let result := postProcess clientMetrics
      (result, cacheStore c1 key result now, 1)
  else
    (postProcess clientMetrics, c, 1)

/-- The dict `get_period_metrics` returns (dates kept as the formatted
strings the source produces from the datetimes). -/
structure PeriodResult where
  org_name : String
  date_from : String
  date_to : String
  updated_at : ℚ
  metrics : Metrics
  deriving DecidableEq

/-- `AnalyticsService.get_period_metrics`: formats the dates, delegates to
`get_metrics`, and wraps the result with the organization name and a fresh
timestamp.  The org-name lookup is not a report query and is abstracted as
`orgName`. -/
def get_period_metrics (c : Cache) (now : ℚ) (dateFrom dateTo : String)
    (orgIds : Option (List String)) (useCache : Bool) (clientMetrics : Metrics)
    (orgName : String) : PeriodResult × Cache × ℕ :=
  let r := get_metrics c now dateFrom dateTo orgIds useCache clientMetrics
  (⟨orgName, dateFrom, dateTo, now, r.1⟩, r.2.1, r.2.2)

/-! ### Comparison operations -/

/-- The nullable-percentage result of `compare_periods`. -/
structure CompareResult where
  revenue_change : Option ℚ
  orders_change : Option ℚ
  avg_check_change : Option ℚ
  deriving DecidableEq

/-- `AnalyticsService.compare_periods` on the two fetched metric dicts:
each change is computed only when the previous period's value is positive,
otherwise it stays `None`. -/
def compare_periods (current previous : Metrics) : CompareResult :=
  { revenue_change :=
      if 0 < previous.revenue then
        some ((current.revenue - previous.revenue) / previous.revenue * 100)
      else none
    orders_change :=
      if 0 < previous.orders then
        some (((current.orders : ℚ) - (previous.orders : ℚ)) / (previous.orders : ℚ) * 100)
      else none
    avg_check_change :=
      if 0 < previous.average_check then
        some ((current.average_check - previous.average_check) /
          previous.average_check * 100)
      else none }

/-- `AnalyticsService.compare_with_yesterday` on today's and the fetched
yesterday's metrics: `None` when yesterday's revenue equals 0. -/
def compare_with_yesterday (today yesterday : Metrics) : Option ℚ :=
  if yesterday.revenue = 0 then none
  else some ((today.revenue - yesterday.revenue) / yesterday.revenue * 100)

/-! ### Spec-side definitions (for refinement comparisons only)

These two follow the WORDS of the specification, not the source, and exist
only to be compared against the source-derived definitions above. -/

/-- Spec's words for C1: the number of distinct (OpenTime, CloseTime)
PAIRS among the rows. -/
def specDistinctPairCount (data : List Row) : ℕ :=
  ((data.map (fun r => (getPy r "OpenTime", getPy r "CloseTime"))).dedup).length

/-- Spec's words for C8: choose the first candidate present in the keys of
ANY row of the set, then sum that field over all rows. -/
def specTotalCostRowSet (costData : List Row) : ℚ :=
  match costCandidates.find? (fun f => costData.any (fun r => decide (f ∈ keysOf r))) with
  | none => 0
  | some f => (costData.map (fun it => costContrib it f)).sum

/-! ### Concrete inputs for scenarios, counterexamples and witnesses -/

/-- The three-row scenario of C1/spec §8. -/
def c1rows : List Row :=
  [[("OpenTime", .str "A"), ("CloseTime", .str "B"), ("DishSumInt", .num 100)],
   [("OpenTime", .str "A"), ("CloseTime", .str "B"), ("DishSumInt", .num 50)],
   [("OpenTime", .str "C"), ("CloseTime", .str "D"), ("DishSumInt", .num 200)]]

/-- Two rows whose distinct (OpenTime, CloseTime) pairs collide after the
underscore concatenation: ("A_B", "C") and ("A", "B_C") share the key
"A_B_C". -/
def c1exRows : List Row :=
  [[("OpenTime", .str "A_B"), ("CloseTime", .str "C"), ("DishSumInt", .num 1)],
   [("OpenTime", .str "A"), ("CloseTime", .str "B_C"), ("DishSumInt", .num 2)]]

/-- C7 scenario rows: two rows of dish "X". -/
def c7rows : List Row :=
  [[("DishName", .str "X"), ("DishDiscountSumInt", .num 100),
    ("ProductCostBase.ProductCost", .num 50)],
   [("DishName", .str "X"), ("DishDiscountSumInt", .num 50),
    ("ProductCostBase.ProductCost", .num 10)]]

/-- C7 expected aggregate for dish "X". -/
def c7dishX : DishEntry :=
  ⟨.str "X", .str "Без категории", .str "Без группы", 150, 60, 0, 40⟩

/-- Cost rows whose first row lacks the higher-priority field present in
the second row (for C8). -/
def c8rowsA : List Row :=
  [[("Cost", .num 10)], [("ProductCost", .num 5)]]

/-- A row whose first-priority cost candidate is present but non-numeric
while a later candidate is numeric (for C8). -/
def c8rowB : Row :=
  [("ProductCostBase.ProductCost", .str "abc"), ("Cost", .num 7)]

/-- An environment answering every request with status 400 (for C5). -/
def env400 : ℕ → HttpResp Unit :=
  fun _ => .resp 400 .empty

/-! ## Helper lemmas: the dict accumulator -/

theorem lookupA_upsertA {κ β : Type} [DecidableEq κ] (k k0 : κ) (upd : β → β)
    (ini : β) (l : List (κ × β)) :
    lookupA k0 (upsertA k upd ini l) =
      if k = k0 then
        match lookupA k0 l with
        | some b => some (upd b)
        | none => some (upd ini)
      else lookupA k0 l := by
  induction l with
  | nil =>
    by_cases h : k = k0 <;> simp [upsertA, lookupA, h]
  | cons hd tl ih =>
    obtain ⟨k', b⟩ := hd
    by_cases h1 : k' = k
    · subst h1
      by_cases h2 : k' = k0
      · subst h2
        simp [upsertA, lookupA]
      · simp [upsertA, lookupA, h2]
    · by_cases h2 : k' = k0
      · subst h2
        have hk : ¬ k = k' := fun hc => h1 hc.symm
        simp [upsertA, lookupA, h1, hk]
      · simp [upsertA, lookupA, h1, h2, ih]

theorem keys_upsertA {κ β : Type} [DecidableEq κ] (k : κ) (upd : β → β)
    (ini : β) (l : List (κ × β)) :
    (upsertA k upd ini l).map Prod.fst =
      if k ∈ l.map Prod.fst then l.map Prod.fst else l.map Prod.fst ++ [k] := by
  induction l with
  | nil => simp [upsertA]
  | cons hd tl ih =>
    obtain ⟨k', b⟩ := hd
    by_cases h1 : k' = k
    · subst h1
      simp [upsertA]
    · have hne : ¬ k = k' := fun hc => h1 hc.symm
      by_cases h2 : k ∈ tl.map Prod.fst <;> simp [upsertA, h1, ih, hne, h2]

theorem toFinset_keys_upsertA {κ β : Type} [DecidableEq κ] (k : κ) (upd : β → β)
    (ini : β) (l : List (κ × β)) :
    ((upsertA k upd ini l).map Prod.fst).toFinset =
      insert k (l.map Prod.fst).toFinset := by
  rw [keys_upsertA]
  by_cases h : k ∈ l.map Prod.fst
  · simp [h, Finset.insert_eq_self.mpr (List.mem_toFinset.mpr h)]
  · simp only [h, if_false, List.toFinset_append, List.toFinset_cons, List.toFinset_nil]
    ext x
    simp [or_comm]

theorem nodup_keys_upsertA {κ β : Type} [DecidableEq κ] (k : κ) (upd : β → β)
    (ini : β) (l : List (κ × β)) (h : (l.map Prod.fst).Nodup) :
    ((upsertA k upd ini l).map Prod.fst).Nodup := by
  rw [keys_upsertA]
  by_cases hm : k ∈ l.map Prod.fst
  · simpa [hm] using h
  · simp only [hm, if_false]
    exact List.Nodup.append h (List.nodup_singleton k) (by simpa using hm)

theorem keys_toFinset_accum_go {ι κ β : Type} [DecidableEq κ] (key : ι → κ)
    (upd : ι → β → β) (ini : ι → β) :
    ∀ (data : List ι) (acc : List (κ × β)),
      ((data.foldl (fun a it => upsertA (key it) (upd it) (ini it) a) acc).map
          Prod.fst).toFinset =
        (acc.map Prod.fst).toFinset ∪ (data.map key).toFinset := by
  intro data
  induction data with
  | nil => intro acc; simp
  | cons it ds ih =>
    intro acc
    simp only [List.foldl_cons, List.map_cons, List.toFinset_cons]
    rw [ih, toFinset_keys_upsertA]
    ext x
    simp [or_assoc, or_left_comm, or_comm]

theorem nodup_keys_accum_go {ι κ β : Type} [DecidableEq κ] (key : ι → κ)
    (upd : ι → β → β) (ini : ι → β) :
    ∀ (data : List ι) (acc : List (κ × β)),
      (acc.map Prod.fst).Nodup →
      ((data.foldl (fun a it => upsertA (key it) (upd it) (ini it) a) acc).map
          Prod.fst).Nodup := by
  intro data
  induction data with
  | nil => intro acc h; simpa using h
  | cons it ds ih =>
    intro acc h
    simp only [List.foldl_cons]
    exact ih _ (nodup_keys_upsertA _ _ _ _ h)

theorem nodup_keys_accumA {ι κ β : Type} [DecidableEq κ] (key : ι → κ)
    (upd : ι → β → β) (ini : ι → β) (data : List ι) :
    ((accumA key upd ini data).map Prod.fst).Nodup :=
  nodup_keys_accum_go key upd ini data [] (by simp)

theorem length_accumA {ι κ β : Type} [DecidableEq κ] (key : ι → κ)
    (upd : ι → β → β) (ini : ι → β) (data : List ι) :
    (accumA key upd ini data).length = (data.map key).dedup.length := by
  have hnd := nodup_keys_accumA key upd ini data
  have hfin := keys_toFinset_accum_go key upd ini data []
  have h1 : (accumA key upd ini data).length =
      ((accumA key upd ini data).map Prod.fst).length := by
    simp
  rw [h1, ← List.Nodup.dedup hnd, ← List.card_toFinset]
  unfold accumA
  rw [hfin]
  simp [List.card_toFinset]

theorem lookupA_accum_go {ι κ β : Type} [DecidableEq κ] (key : ι → κ)
    (upd : ι → β → β) (ini : ι → β) (k : κ) :
    ∀ (data : List ι) (acc : List (κ × β)),
      lookupA k (data.foldl (fun a it => upsertA (key it) (upd it) (ini it) a) acc) =
        (data.filter (fun it => decide (key it = k))).foldl
          (fun ob it => some (upd it (ob.getD (ini it)))) (lookupA k acc) := by
  intro data
  induction data with
  | nil => intro acc; simp
  | cons it ds ih =>
    intro acc
    simp only [List.foldl_cons, List.filter_cons]
    by_cases h : key it = k
    · rw [ih]
      have hl : lookupA k (upsertA (key it) (upd it) (ini it) acc) =
          some (upd it ((lookupA k acc).getD (ini it))) := by
        rw [lookupA_upsertA]
        simp only [h, if_true]
        cases lookupA k acc <;> simp
      rw [hl]
      simp [h]
    · rw [ih]
      have hl : lookupA k (upsertA (key it) (upd it) (ini it) acc) = lookupA k acc := by
        rw [lookupA_upsertA]
        simp [h]
      rw [hl]
      simp [h]

theorem lookupA_of_mem_nodup {κ β : Type} [DecidableEq κ] {k : κ} {b : β} :
    ∀ {l : List (κ × β)}, (l.map Prod.fst).Nodup → (k, b) ∈ l → lookupA k l = some b := by
  intro l
  induction l with
  | nil =>
    intro _ hm
    simp at hm
  | cons hd tl ih =>
    intro hnd hm
    obtain ⟨k', b'⟩ := hd
    simp only [List.map_cons, List.nodup_cons] at hnd
    rcases List.mem_cons.mp hm with h | h
    · cases h
      simp [lookupA]
    · have hne : ¬ k' = k := by
        intro he
        exact hnd.1 (by rw [he]; exact List.mem_map.mpr ⟨(k, b), h, rfl⟩)
      simp only [lookupA, hne, if_false]
      exact ih hnd.2 h

theorem sumVals_upsertA_bump {κ : Type} [DecidableEq κ] (k : κ) (it : Row)
    (l : List (κ × ℚ)) :
    ((upsertA k (bumpRevenue it) (zeroRevenue it) l).map Prod.snd).sum =
      (l.map Prod.snd).sum + rowRevenue it := by
  induction l with
  | nil => simp [upsertA, bumpRevenue, zeroRevenue]
  | cons hd tl ih =>
    obtain ⟨k', x⟩ := hd
    by_cases h : k' = k
    · simp only [upsertA, h, if_true, List.map_cons, List.sum_cons, bumpRevenue]
      ring
    · simp only [upsertA, h, if_false, List.map_cons, List.sum_cons, ih]
      ring

theorem sum_orders_go :
    ∀ (data : List Row) (acc : List (String × ℚ)),
      ((data.foldl (fun a it => upsertA (orderKey it) (bumpRevenue it) (zeroRevenue it) a)
          acc).map Prod.snd).sum =
        (acc.map Prod.snd).sum + (data.map rowRevenue).sum := by
  intro data
  induction data with
  | nil => intro acc; simp
  | cons it ds ih =>
    intro acc
    simp only [List.foldl_cons, List.map_cons, List.sum_cons]
    rw [ih, sumVals_upsertA_bump]
    ring

theorem sum_ordersDict (data : List Row) :
    ((ordersDict data).map Prod.snd).sum = (data.map rowRevenue).sum := by
  have h := sum_orders_go data []
  simpa [ordersDict, accumA] using h

theorem dishFold_some :
    ∀ (l : List Row) (st : Val × Val) (s : ℚ × ℚ × ℚ),
      l.foldl (fun ob it => some (dishUpd it (ob.getD (dishIni it)))) (some (st, s)) =
        some (st, s + (l.map rowSums).sum) := by
  intro l
  induction l with
  | nil => intro st s; simp
  | cons it ds ih =>
    intro st s
    simp only [List.foldl_cons, Option.getD_some, List.map_cons, List.sum_cons]
    rw [show dishUpd it (st, s) = (st, s + rowSums it) from rfl, ih]
    rw [add_assoc]

theorem bucketFold_some :
    ∀ (l : List Row) (s : ℚ × ℚ × ℚ),
      l.foldl (fun ob it => some (bucketUpd it (ob.getD (bucketIni it)))) (some s) =
        some (s + (l.map rowSums).sum) := by
  intro l
  induction l with
  | nil => intro s; simp
  | cons it ds ih =>
    intro s
    simp only [List.foldl_cons, Option.getD_some, List.map_cons, List.sum_cons]
    rw [show bucketUpd it s = s + rowSums it from rfl, ih]
    rw [add_assoc]

theorem mem_accumDishes_char {data : List Row} {p : Val × ((Val × Val) × (ℚ × ℚ × ℚ))}
    (hm : p ∈ accumDishes data) :
    p.2.2 = ((data.filter (fun it => decide (dishNameOf it = p.1))).map rowSums).sum := by
  obtain ⟨k, b⟩ := p
  have hnd := nodup_keys_accumA dishNameOf dishUpd dishIni data
  have hl : lookupA k (accumDishes data) = some b :=
    lookupA_of_mem_nodup hnd hm
  rw [show accumDishes data =
      data.foldl (fun a it => upsertA (dishNameOf it) (dishUpd it) (dishIni it) a) []
    from rfl] at hl
  rw [lookupA_accum_go dishNameOf dishUpd dishIni k data []] at hl
  simp only [lookupA] at hl
  rcases hf : data.filter (fun it => decide (dishNameOf it = k)) with _ | ⟨it0, rest⟩
  · rw [hf] at hl
    simp at hl
  · rw [hf] at hl
    simp only [List.foldl_cons, Option.getD_none] at hl
    rw [show dishUpd it0 (dishIni it0) =
        ((dishCategoryOf it0, dishGroupOf it0), 0 + rowSums it0) from rfl] at hl
    rw [dishFold_some] at hl
    injection hl with hl'
    subst hl'
    simp [add_assoc]

theorem mem_accumBucket_char (keyOf : Row → Val) {data : List Row}
    {p : Val × (ℚ × ℚ × ℚ)} (hm : p ∈ accumA keyOf bucketUpd bucketIni data) :
    p.2 = ((data.filter (fun it => decide (keyOf it = p.1))).map rowSums).sum := by
  obtain ⟨k, s⟩ := p
  have hnd := nodup_keys_accumA keyOf bucketUpd bucketIni data
  have hl : lookupA k (accumA keyOf bucketUpd bucketIni data) = some s :=
    lookupA_of_mem_nodup hnd hm
  rw [show accumA keyOf bucketUpd bucketIni data =
      data.foldl (fun a it => upsertA (keyOf it) (bucketUpd it) (bucketIni it) a) []
    from rfl] at hl
  rw [lookupA_accum_go keyOf bucketUpd bucketIni k data []] at hl
  simp only [lookupA] at hl
  rcases hf : data.filter (fun it => decide (keyOf it = k)) with _ | ⟨it0, rest⟩
  · rw [hf] at hl
    simp at hl
  · rw [hf] at hl
    simp only [List.foldl_cons, Option.getD_none] at hl
    rw [show bucketUpd it0 (bucketIni it0) = 0 + rowSums it0 from rfl] at hl
    rw [bucketFold_some] at hl
    injection hl with hl'
    subst hl'
    simp [add_assoc]

theorem sum_rowSums_fst (l : List Row) :
    ((l.map rowSums).sum).1 = (l.map rowRevenue).sum := by
  induction l with
  | nil => simp
  | cons it ds ih => simp [Prod.fst_add, ih, rowSums]

theorem sum_rowSums_cost (l : List Row) :
    ((l.map rowSums).sum).2.1 = (l.map detailedRowCost).sum := by
  induction l with
  | nil => simp
  | cons it ds ih => simp [Prod.snd_add, Prod.fst_add, ih, rowSums]

theorem sum_rowSums_orders (l : List Row) :
    ((l.map rowSums).sum).2.2 = (l.map rowOrdersD).sum := by
  induction l with
  | nil => simp
  | cons it ds ih => simp [Prod.snd_add, ih, rowSums]

theorem pairwise_mergeSort_dish (l : List DishEntry) :
    List.Pairwise (fun a b => b.revenue ≤ a.revenue) (l.mergeSort dishGE) := by
  have htrans : ∀ a b c : DishEntry, dishGE a b = true → dishGE b c = true →
      dishGE a c = true := by
    intro a b c hab hbc
    simp only [dishGE, decide_eq_true_eq] at *
    exact le_trans hbc hab
  have htotal : ∀ a b : DishEntry, (dishGE a b || dishGE b a) = true := by
    intro a b
    simp only [dishGE, Bool.or_eq_true, decide_eq_true_eq]
    exact le_total b.revenue a.revenue
  have h := @List.sorted_mergeSort DishEntry dishGE htrans htotal l
  exact h.imp (fun hab => by simpa [dishGE] using hab)

theorem pairwise_mergeSort_bucket (l : List BucketEntry) :
    List.Pairwise (fun a b => b.revenue ≤ a.revenue) (l.mergeSort bucketGE) := by
  have htrans : ∀ a b c : BucketEntry, bucketGE a b = true → bucketGE b c = true →
      bucketGE a c = true := by
    intro a b c hab hbc
    simp only [bucketGE, decide_eq_true_eq] at *
    exact le_trans hbc hab
  have htotal : ∀ a b : BucketEntry, (bucketGE a b || bucketGE b a) = true := by
    intro a b
    simp only [bucketGE, Bool.or_eq_true, decide_eq_true_eq]
    exact le_total b.revenue a.revenue
  have h := @List.sorted_mergeSort BucketEntry bucketGE htrans htotal l
  exact h.imp (fun hab => by simpa [bucketGE] using hab)

/-! ## Helper lemmas: the cache -/

theorem lookupA_cacheStore_self (c : Cache) (k : String) (m : Metrics) (t : ℚ) :
    lookupA k (cacheStore c k m t) = some (m, t) := by
  unfold cacheStore
  rw [lookupA_upsertA]
  simp only [if_true, ite_true]
  cases lookupA k c <;> simp

theorem lookupA_eraseKey (c : Cache) (k k' : String) :
    lookupA k' (eraseKey c k) = if k' = k then none else lookupA k' c := by
  induction c with
  | nil =>
    by_cases h : k' = k <;> simp [eraseKey, lookupA, h]
  | cons hd tl ih =>
    obtain ⟨k0, e⟩ := hd
    by_cases h0 : k0 = k
    · subst h0
      rw [show eraseKey ((k0, e) :: tl) k0 = eraseKey tl k0 from by simp [eraseKey]]
      rw [ih]
      by_cases h2 : k' = k0
      · simp [h2]
      · have h3 : ¬ k0 = k' := fun hc => h2 hc.symm
        simp [h2, lookupA, h3]
    · rw [show eraseKey ((k0, e) :: tl) k = (k0, e) :: eraseKey tl k from by
        simp [eraseKey, h0]]
      by_cases h2 : k0 = k'
      · subst h2
        have h4 : ¬ k0 = k := h0
        simp [lookupA, h4]
      · simp only [lookupA, h2, if_false]
        rw [ih]

/-! ## Claim theorems -/

/-- C2: for every pair of aggregated values (cost, revenue) produced by
`get_sales_metrics` or `get_detailed_foodcost`, the food-cost percentage
equals cost/revenue*100 when revenue > 0 and 0 otherwise; the value is an
exact quotient, never clamped, and the computation is total (never raises). -/
theorem C2_food_cost_pct (salesResp : Option (Option (List Row)))
    (fetched : Option (List Row)) (resp : Option (List Row)) :
    (get_sales_metrics salesResp fetched).food_cost_pct =
      (if 0 < (get_sales_metrics salesResp fetched).revenue then
        (get_sales_metrics salesResp fetched).food_cost /
          (get_sales_metrics salesResp fetched).revenue * 100
      else 0)
    ∧ (get_detailed_foodcost resp).avg_foodcost_pct =
      (if 0 < (get_detailed_foodcost resp).total_revenue then
        (get_detailed_foodcost resp).total_cost /
          (get_detailed_foodcost resp).total_revenue * 100
      else 0) := by
  constructor
  · cases salesResp with
    | none => simp [get_sales_metrics, getSalesMetricsCore, zeroMetrics]
    | some dataOpt => simp [get_sales_metrics, getSalesMetricsCore]
  · cases resp with
    | none => simp [get_detailed_foodcost, emptyDetailed]
    | some data =>
      cases data with
      | nil => simp [get_detailed_foodcost, emptyDetailed]
      | cons it rest => simp [get_detailed_foodcost, processDetailed]

/-- C3: a cache lookup strictly less than 300 seconds (the ttl) after a
store for the same key is a hit returning the stored value and leaves the
cache unchanged; a lookup at or after 300 seconds is a miss that deletes
the entry for that key, and the deletion touches no other key. -/
theorem C3_cache_ttl (c : Cache) (k k' : String) (v : Metrics) (t t' : ℚ) :
    cacheGet (cacheStore c k v t) k t' =
      (if t' - t < 300 then (some v, cacheStore c k v t)
       else (none, eraseKey (cacheStore c k v t) k))
    ∧ lookupA k' (eraseKey (cacheStore c k v t) k) =
      (if k' = k then none else lookupA k' (cacheStore c k v t)) := by
  refine ⟨?_, lookupA_eraseKey _ _ _⟩
  unfold cacheGet
  rw [lookupA_cacheStore_self]
  by_cases h : t' - t < 300
  · simp [is_cache_valid, h]
  · simp [is_cache_valid, h]

/-- C4: `compare_periods` yields `None` (not zero, not an exception) for
each metric whose previous-period value is zero, and the exact percentage
change when it is positive; `compare_with_yesterday` does the same for
revenue. -/
theorem C4_comparisons_null_on_zero_baseline (current previous today yesterday : Metrics) :
    (previous.revenue = 0 → (compare_periods current previous).revenue_change = none)
    ∧ (0 < previous.revenue → (compare_periods current previous).revenue_change =
        some ((current.revenue - previous.revenue) / previous.revenue * 100))
    ∧ (previous.orders = 0 → (compare_periods current previous).orders_change = none)
    ∧ (0 < previous.orders → (compare_periods current previous).orders_change =
        some (((current.orders : ℚ) - (previous.orders : ℚ)) /
          (previous.orders : ℚ) * 100))
    ∧ (previous.average_check = 0 →
        (compare_periods current previous).avg_check_change = none)
    ∧ (0 < previous.average_check →
        (compare_periods current previous).avg_check_change =
        some ((current.average_check - previous.average_check) /
          previous.average_check * 100))
    ∧ (yesterday.revenue = 0 → compare_with_yesterday today yesterday = none)
    ∧ (0 < yesterday.revenue → compare_with_yesterday today yesterday =
        some ((today.revenue - yesterday.revenue) / yesterday.revenue * 100)) := by
  refine ⟨?_, ?_, ?_, ?_, ?_, ?_, ?_, ?_⟩
  · intro h
    simp [compare_periods, h]
  · intro h
    simp [compare_periods, h]
  · intro h
    simp [compare_periods, h]
  · intro h
    simp [compare_periods, h]
  · intro h
    simp [compare_periods, h]
  · intro h
    simp [compare_periods, h]
  · intro h
    simp [compare_with_yesterday, h]
  · intro h
    have hne : yesterday.revenue ≠ 0 := ne_of_gt h
    simp [compare_with_yesterday, hne]

/-- C4 witness: concrete zero and positive baselines. -/
theorem C4_comparisons_witness :
    (compare_periods zeroMetrics zeroMetrics).revenue_change = none
    ∧ compare_with_yesterday zeroMetrics zeroMetrics = none
    ∧ (compare_periods ⟨100, 0, 0, 0, 0⟩ ⟨50, 0, 0, 0, 0⟩).revenue_change =
        some ((100 - 50) / 50 * 100) := by
  refine ⟨?_, ?_, ?_⟩
  · exact (C4_comparisons_null_on_zero_baseline zeroMetrics zeroMetrics
      zeroMetrics zeroMetrics).1 rfl
  · exact (C4_comparisons_null_on_zero_baseline zeroMetrics zeroMetrics
      zeroMetrics zeroMetrics).2.2.2.2.2.2.1 rfl
  · exact (C4_comparisons_null_on_zero_baseline ⟨100, 0, 0, 0, 0⟩ ⟨50, 0, 0, 0, 0⟩
      zeroMetrics zeroMetrics).2.1 (by norm_num)

/-- C6: when the sales query fails (all attempts raised, or the response
was falsy), `get_sales_metrics` returns — rather than raises — the zeroed
metrics structure {0, 0, 0, 0, 0}; every internal error is mapped to that
same structure, which coincides with the result of a genuine period with
no sales rows, so the two are indistinguishable. -/
theorem C6_failure_returns_zeroed (fetched : Option (List Row))
    (salesResp : Option (Option (List Row))) (e : String) :
    get_sales_metrics none fetched = zeroMetrics
    ∧ zeroMetrics = ⟨0, 0, 0, 0, 0⟩
    ∧ get_sales_metrics (some (some [])) none = zeroMetrics
    ∧ (getSalesMetricsCore salesResp fetched = .error e →
        get_sales_metrics salesResp fetched = zeroMetrics) := by
  refine ⟨?_, rfl, ?_, ?_⟩
  · simp [get_sales_metrics, getSalesMetricsCore]
  · simp [get_sales_metrics, getSalesMetricsCore, ordersDict, accumA,
      effectiveCostData, fallbackCost, totalCost, zeroMetrics]
  · intro h
    simp [get_sales_metrics, h]

/-- C6 witness: the failure case evaluated at a concrete input. -/
theorem C6_failure_returns_zeroed_witness :
    get_sales_metrics none none = zeroMetrics :=
  (C6_failure_returns_zeroed none none
    "Failed to get sales data from OLAP response").2.2.2 rfl

/-- C10: with `use_cache=False`, `get_metrics` neither reads nor writes the
cache: the cache comes back unchanged, the result is the same whatever the
cache contains, and the external client is queried exactly once. -/
theorem C10_no_cache_frame (c c' : Cache) (now : ℚ) (dateFrom dateTo : String)
    (orgIds : Option (List String)) (m : Metrics) :
    (get_metrics c now dateFrom dateTo orgIds false m).2.1 = c
    ∧ (get_metrics c now dateFrom dateTo orgIds false m).1 =
        (get_metrics c' now dateFrom dateTo orgIds false m).1
    ∧ (get_metrics c now dateFrom dateTo orgIds false m).2.2 = 1 := by
  refine ⟨?_, ?_, ?_⟩ <;> simp [get_metrics]

/-- C1 counterexample: the source keys orders by the string
`f"{open_time}_{close_time}"`, so the distinct pairs ("A_B","C") and
("A","B_C") collapse into the single key "A_B_C": the code counts 1 order
where the claim's distinct-pair count is 2. -/
theorem C1_distinct_pairs_counterexample :
    (get_sales_metrics (some (some c1exRows)) none).orders = 1
    ∧ specDistinctPairCount c1exRows = 2
    ∧ ¬((get_sales_metrics (some (some c1exRows)) none).orders =
        specDistinctPairCount c1exRows) := by
  refine ⟨by decide, by decide, by decide⟩

/-- C1 amended: `orders` equals the number of distinct concatenated key
strings `str(OpenTime) ++ "_" ++ str(CloseTime)` (equal to the number of
distinct pairs only when the rendered values contain no underscore);
`revenue` is the sum of the per-row discounted-else-undiscounted totals
with missing/non-numeric values as 0; `average_check = revenue/orders`
when `orders > 0` else 0; and the three-row scenario yields
orders=2, revenue=350, average_check=175. -/
theorem C1_orders_revenue_amended (rows : List Row) (fetched : Option (List Row)) :
    (get_sales_metrics (some (some rows)) fetched).orders =
        ((rows.map orderKey).dedup).length
    ∧ (get_sales_metrics (some (some rows)) fetched).revenue =
        (rows.map rowRevenue).sum
    ∧ (get_sales_metrics (some (some rows)) fetched).average_check =
        (if 0 < (get_sales_metrics (some (some rows)) fetched).orders then
          (get_sales_metrics (some (some rows)) fetched).revenue /
            ((get_sales_metrics (some (some rows)) fetched).orders : ℚ)
        else 0)
    ∧ get_sales_metrics (some (some c1rows)) none = ⟨350, 2, 175, 0, 0⟩ := by
  have hm : get_sales_metrics (some (some rows)) fetched =
      ⟨((ordersDict rows).map Prod.snd).sum, (ordersDict rows).length,
        (if 0 < (ordersDict rows).length then
          ((ordersDict rows).map Prod.snd).sum / ((ordersDict rows).length : ℚ)
        else 0),
        totalCost (effectiveCostData rows fetched),
        (if 0 < ((ordersDict rows).map Prod.snd).sum then
          totalCost (effectiveCostData rows fetched) /
            ((ordersDict rows).map Prod.snd).sum * 100
        else 0)⟩ := rfl
  refine ⟨?_, ?_, ?_, ?_⟩
  · rw [hm]
    exact length_accumA orderKey bumpRevenue zeroRevenue rows
  · rw [hm]
    exact sum_ordersDict rows
  · rw [hm]
  · have hd : ordersDict c1rows = [("A_B", 150), ("C_D", 200)] := by
      have h1 : ("A" ++ "_" ++ "B" : String) = "A_B" := rfl
      have h2 : ("C" ++ "_" ++ "D" : String) = "C_D" := rfl
      simp [ordersDict, accumA, c1rows, upsertA, orderKey, rowRevenue, getPy,
        getField?, pyStr, pyOrZero, pyTruthy, pyFloat?, bumpRevenue, zeroRevenue,
        h1, h2]
      norm_num
    have hkeys : ((["OpenTime", "CloseTime", "DishSumInt"] : List String).any
        costLike) = false := by
      decide
    have hfb : effectiveCostData c1rows none = [] := by
      simp [effectiveCostData, fallbackCost, c1rows, keysOf, hkeys]
    simp [get_sales_metrics, getSalesMetricsCore, hd, hfb, totalCost]
    norm_num [Metrics.mk.injEq]

/-- C5 counterexample: against a server that always answers 400, the
request is issued 3 times, not once: the `raise` on a 400 is caught by the
generic retry handler, which reissues the request until the attempt budget
is exhausted. -/
theorem C5_bad_request_counterexample :
    (make_request env400).2 = 3
    ∧ ¬((make_request env400).2 = 1)
    ∧ (make_request env400).1 = .raised .badRequest := by
  refine ⟨by decide, by decide, by decide⟩

/-- C5 amended: a 400-equivalent response raises a BadRequestError inside
the attempt, but the surrounding retry handler catches it and reissues the
request unless the attempt was the last: when every response is
400-equivalent, the request is issued exactly 3 times and the
BadRequestError of the final attempt is surfaced to the caller. -/
theorem C5_bad_request_retried_amended {α : Type} (env : ℕ → HttpResp α)
    (h : ∀ i, i < 3 → respStatus? (env i) = some 400) :
    make_request env = (.raised .badRequest, 3) := by
  have hc : ∀ i, i < 3 → classify (env i) = StepClass.failed ReqError.badRequest := by
    intro i hi
    have hs := h i hi
    cases he : env i with
    | netFail =>
      rw [he] at hs
      simp [respStatus?] at hs
    | resp s b =>
      rw [he] at hs
      simp only [respStatus?, Option.some.injEq] at hs
      subst hs
      simp [classify]
  have h0 := hc 0 (by norm_num)
  have h1 := hc 1 (by norm_num)
  have h2 := hc 2 (by norm_num)
  simp [make_request, makeRequestGo, h0, h1, h2]

/-- C5 witness for the amended theorem: the all-400 environment. -/
theorem C5_bad_request_retried_witness :
    make_request env400 = (.raised .badRequest, 3) :=
  C5_bad_request_retried_amended env400 (fun _ _ => rfl)

/-- C8 counterexample: (i) the total-cost field is chosen from the FIRST
row's keys only — for rows [{Cost:10}, {ProductCost:5}] the code sums
`Cost` (10) while the claim's first candidate present in the row set is
`ProductCost` (sum 5); (ii) the detailed per-row scan skips a present but
non-numeric candidate and uses a later one — for
{ProductCostBase.ProductCost:"abc", Cost:7} the code takes 7 while the
claim's chosen field contributes 0. -/
theorem C8_cost_field_counterexample :
    totalCost c8rowsA = 10
    ∧ specTotalCostRowSet c8rowsA = 5
    ∧ ¬(totalCost c8rowsA = specTotalCostRowSet c8rowsA)
    ∧ findCostField (keysOf c8rowB) = some "ProductCostBase.ProductCost"
    ∧ costContrib c8rowB "ProductCostBase.ProductCost" = 0
    ∧ detailedRowCost c8rowB = 7 := by
  have e1 : totalCost c8rowsA = 10 := by
    simp [totalCost, c8rowsA, findCostField, costCandidates, keysOf, costContrib,
      getField?, pyFloat?, List.find?]
  have e2 : specTotalCostRowSet c8rowsA = 5 := by
    simp [specTotalCostRowSet, c8rowsA, costCandidates, keysOf, costContrib,
      getField?, pyFloat?, List.find?]
  refine ⟨e1, e2, ?_, by decide, ?_, ?_⟩
  · rw [e1, e2]
    norm_num
  · simp [costContrib, c8rowB, getField?, pyFloat?, parseFloat?, parseDec?]
  · simp [detailedRowCost, scanCostVal, costCandidates, c8rowB, getField?,
      pyFloat?, parseFloat?, parseDec?]

/-- C8 amended: the candidates are scanned in the fixed priority order, but
(i) for the total cost the field is chosen from the first row's keys and
then summed over all rows with missing/null/non-numeric values contributing
0, and (ii) the detailed breakdown scans the candidates per row, using the
first candidate whose present value coerces to a number and skipping
present-but-null or non-numeric candidates. -/
theorem C8_cost_field_amended :
    (∀ (first : Row) (rest : List Row) (f : String),
        findCostField (keysOf first) = some f →
        totalCost (first :: rest) =
          ((first :: rest).map (fun it => costContrib it f)).sum)
    ∧ (∀ keys : List String, "ProductCostBase.ProductCost" ∈ keys →
        findCostField keys = some "ProductCostBase.ProductCost")
    ∧ (∀ (item : Row) (q : ℚ),
        pyFloat? (getPy item "ProductCostBase.ProductCost") = some q →
        detailedRowCost item = q)
    ∧ (∀ (item : Row) (f : String) (fs : List String),
        (getField? item f = none ∨ getField? item f = some .null ∨
          (∃ v, getField? item f = some v ∧ pyFloat? v = none)) →
        scanCostVal item (f :: fs) = scanCostVal item fs) := by
  refine ⟨?_, ?_, ?_, ?_⟩
  · intro first rest f h
    simp [totalCost, h]
  · intro keys h
    simp [findCostField, costCandidates, List.find?, h]
  · intro item q h
    unfold getPy at h
    cases hf : getField? item "ProductCostBase.ProductCost" with
    | none =>
      rw [hf] at h
      simp [pyFloat?] at h
    | some v =>
      rw [hf] at h
      cases v with
      | null =>
        simp [pyFloat?] at h
      | str s =>
        simp only [Option.getD_some] at h
        simp [detailedRowCost, scanCostVal, costCandidates, hf, h]
      | num q' =>
        simp only [Option.getD_some] at h
        simp [detailedRowCost, scanCostVal, costCandidates, hf, h]
  · intro item f fs h
    rcases h with h | h | ⟨v, hv, hq⟩
    · simp [scanCostVal, h]
    · simp [scanCostVal, h]
    · cases v with
      | null =>
        simp [scanCostVal, hv]
      | str s =>
        simp [scanCostVal, hv, hq]
      | num q' =>
        simp [pyFloat?] at hq

/-- C8 witness: the amended selection and summing rules evaluated at
concrete rows. -/
theorem C8_cost_field_witness :
    totalCost [[("Cost", Val.num 10)]] =
      ([[("Cost", Val.num 10)]].map (fun it => costContrib it "Cost")).sum
    ∧ findCostField ["ProductCostBase.ProductCost"] =
        some "ProductCostBase.ProductCost"
    ∧ detailedRowCost [("ProductCostBase.ProductCost", Val.num 50)] = 50
    ∧ scanCostVal c8rowB ("ProductCostBase.ProductCost" :: ["Cost"]) =
        scanCostVal c8rowB ["Cost"] := by
  refine ⟨?_, ?_, ?_, ?_⟩
  · exact C8_cost_field_amended.1 [("Cost", Val.num 10)] [] "Cost" (by decide)
  · exact C8_cost_field_amended.2.1 ["ProductCostBase.ProductCost"] (by decide)
  · exact C8_cost_field_amended.2.2.1 [("ProductCostBase.ProductCost", Val.num 50)]
      50 (by simp [getPy, getField?, pyFloat?])
  · exact C8_cost_field_amended.2.2.2 c8rowB "ProductCostBase.ProductCost" ["Cost"]
      (Or.inr (Or.inr ⟨Val.str "abc", by simp [c8rowB, getField?],
        by simp [pyFloat?, parseFloat?, parseDec?]⟩))

theorem get_metrics_of_miss (c : Cache) (now : ℚ) (df dt : String)
    (orgIds : Option (List String)) (m : Metrics)
    (h : (cacheGet c (cacheKeyOf df dt orgIds) now).1 = none) :
    get_metrics c now df dt orgIds true m =
      (postProcess m,
        cacheStore (cacheGet c (cacheKeyOf df dt orgIds) now).2
          (cacheKeyOf df dt orgIds) (postProcess m) now, 1) := by
  rcases hc : cacheGet c (cacheKeyOf df dt orgIds) now with ⟨o, c1⟩
  rw [hc] at h
  simp only at h
  subst h
  simp [get_metrics, hc]

theorem get_metrics_of_hit (c : Cache) (now : ℚ) (df dt : String)
    (orgIds : Option (List String)) (m v : Metrics) (c2 : Cache)
    (h : cacheGet c (cacheKeyOf df dt orgIds) now = (some v, c2)) :
    get_metrics c now df dt orgIds true m = (v, c2, 0) := by
  simp [get_metrics, h]

/-- C9: starting from a cache with no valid entry for the key, two
`get_period_metrics` calls for the same (date range, organization filter)
with `use_cache=true`, the second within the 300-second ttl of the first,
issue exactly one external report query between them: the first computes
and stores, the second is answered from that entry and issues none, and it
returns the very metrics the first call produced. -/
theorem C9_single_query_idempotence (c0 : Cache) (t1 t2 : ℚ)
    (dateFrom dateTo : String) (orgIds : Option (List String)) (m1 m2 : Metrics)
    (name1 name2 : String)
    (hmiss : ∀ v t, lookupA (cacheKeyOf dateFrom dateTo orgIds) c0 = some (v, t) →
      is_cache_valid t1 t = false)
    (hfresh : is_cache_valid t2 t1 = true) :
    (get_period_metrics c0 t1 dateFrom dateTo orgIds true m1 name1).2.2 = 1
    ∧ (get_period_metrics
        (get_period_metrics c0 t1 dateFrom dateTo orgIds true m1 name1).2.1
        t2 dateFrom dateTo orgIds true m2 name2).2.2 = 0
    ∧ (get_period_metrics
        (get_period_metrics c0 t1 dateFrom dateTo orgIds true m1 name1).2.1
        t2 dateFrom dateTo orgIds true m2 name2).1.metrics =
      (get_period_metrics c0 t1 dateFrom dateTo orgIds true m1 name1).1.metrics := by
  have hmiss1 : (cacheGet c0 (cacheKeyOf dateFrom dateTo orgIds) t1).1 = none := by
    unfold cacheGet
    cases hl : lookupA (cacheKeyOf dateFrom dateTo orgIds) c0 with
    | none => rfl
    | some vt =>
      obtain ⟨v, t⟩ := vt
      simp [hmiss v t hl]
  have h1 := get_metrics_of_miss c0 t1 dateFrom dateTo orgIds m1 hmiss1
  have hget2 : cacheGet
      (cacheStore (cacheGet c0 (cacheKeyOf dateFrom dateTo orgIds) t1).2
        (cacheKeyOf dateFrom dateTo orgIds) (postProcess m1) t1)
      (cacheKeyOf dateFrom dateTo orgIds) t2 =
      (some (postProcess m1),
        cacheStore (cacheGet c0 (cacheKeyOf dateFrom dateTo orgIds) t1).2
          (cacheKeyOf dateFrom dateTo orgIds) (postProcess m1) t1) := by
    unfold cacheGet
    rw [lookupA_cacheStore_self]
    simp [hfresh]
  have h2 := get_metrics_of_hit
    (cacheStore (cacheGet c0 (cacheKeyOf dateFrom dateTo orgIds) t1).2
      (cacheKeyOf dateFrom dateTo orgIds) (postProcess m1) t1)
    t2 dateFrom dateTo orgIds m2 (postProcess m1)
    (cacheStore (cacheGet c0 (cacheKeyOf dateFrom dateTo orgIds) t1).2
      (cacheKeyOf dateFrom dateTo orgIds) (postProcess m1) t1) hget2
  refine ⟨?_, ?_, ?_⟩ <;> simp [get_period_metrics, h1, h2]

/-- C9 witness: an empty starting cache, back-to-back calls one second
apart. -/
theorem C9_single_query_idempotence_witness :
    (get_period_metrics [] 0 "2024-01-01" "2024-01-02" none true zeroMetrics
      "org").2.2 = 1
    ∧ (get_period_metrics
        (get_period_metrics [] 0 "2024-01-01" "2024-01-02" none true zeroMetrics
          "org").2.1
        1 "2024-01-01" "2024-01-02" none true zeroMetrics "org").2.2 = 0 := by
  have h := C9_single_query_idempotence [] 0 1 "2024-01-01" "2024-01-02" none
    zeroMetrics zeroMetrics "org" "org"
    (fun v t hl => by simp [lookupA] at hl)
    (by norm_num [is_cache_valid])
  exact ⟨h.1, h.2.1⟩

/-- C7: the detailed breakdown accumulates three dictionaries of running
revenue/cost/orders sums keyed by dish name, category and group — every
output entry's totals equal the sums over the rows sharing its key; each
entry's `foodcost_pct` is recomputed from that entry's total cost and total
revenue; the three output sequences are sorted by revenue descending; and
the two-row "X" scenario aggregates to one entry with revenue=150, cost=60,
foodcost_pct=40. -/
theorem C7_detailed_breakdown (data : List Row) :
    (∀ e ∈ (processDetailed data).by_dishes,
        e.revenue =
          ((data.filter (fun it => decide (dishNameOf it = e.name))).map
            rowRevenue).sum
      ∧ e.cost =
          ((data.filter (fun it => decide (dishNameOf it = e.name))).map
            detailedRowCost).sum
      ∧ e.orders =
          ((data.filter (fun it => decide (dishNameOf it = e.name))).map
            rowOrdersD).sum
      ∧ e.foodcost_pct = (if 0 < e.revenue then e.cost / e.revenue * 100 else 0))
    ∧ List.Pairwise (fun a b => b.revenue ≤ a.revenue)
        (processDetailed data).by_dishes
    ∧ (∀ e ∈ (processDetailed data).by_categories,
        e.revenue =
          ((data.filter (fun it => decide (dishCategoryOf it = e.name))).map
            rowRevenue).sum
      ∧ e.cost =
          ((data.filter (fun it => decide (dishCategoryOf it = e.name))).map
            detailedRowCost).sum
      ∧ e.orders =
          ((data.filter (fun it => decide (dishCategoryOf it = e.name))).map
            rowOrdersD).sum
      ∧ e.foodcost_pct = (if 0 < e.revenue then e.cost / e.revenue * 100 else 0))
    ∧ List.Pairwise (fun a b => b.revenue ≤ a.revenue)
        (processDetailed data).by_categories
    ∧ (∀ e ∈ (processDetailed data).by_groups,
        e.revenue =
          ((data.filter (fun it => decide (dishGroupOf it = e.name))).map
            rowRevenue).sum
      ∧ e.cost =
          ((data.filter (fun it => decide (dishGroupOf it = e.name))).map
            detailedRowCost).sum
      ∧ e.orders =
          ((data.filter (fun it => decide (dishGroupOf it = e.name))).map
            rowOrdersD).sum
      ∧ e.foodcost_pct = (if 0 < e.revenue then e.cost / e.revenue * 100 else 0))
    ∧ List.Pairwise (fun a b => b.revenue ≤ a.revenue)
        (processDetailed data).by_groups
    ∧ processDetailed c7rows =
        ⟨[c7dishX], [⟨.str "Без категории", 150, 60, 0, 40⟩],
          [⟨.str "Без группы", 150, 60, 0, 40⟩], 150, 60, 40⟩ := by
  refine ⟨?_, ?_, ?_, ?_, ?_, ?_, ?_⟩
  · intro e he
    have he2 : e ∈ (accumDishes data).map buildDish := by
      have hb : (processDetailed data).by_dishes =
          ((accumDishes data).map buildDish).mergeSort dishGE := rfl
      rw [hb] at he
      exact List.mem_mergeSort.mp he
    obtain ⟨p, hp, rfl⟩ := List.mem_map.mp he2
    have hs := mem_accumDishes_char hp
    refine ⟨?_, ?_, ?_, rfl⟩
    · show p.2.2.1 = _
      have h1 := congrArg Prod.fst hs
      simp only [buildDish]
      rw [h1, sum_rowSums_fst]
    · show p.2.2.2.1 = _
      have h1 := congrArg (fun x => x.2.1) hs
      simp only [buildDish]
      simp only at h1
      rw [h1, sum_rowSums_cost]
    · show p.2.2.2.2 = _
      have h1 := congrArg (fun x => x.2.2) hs
      simp only [buildDish]
      simp only at h1
      rw [h1, sum_rowSums_orders]
  · exact pairwise_mergeSort_dish _
  · intro e he
    have he2 : e ∈ (accumCats data).map buildBucket := by
      have hb : (processDetailed data).by_categories =
          ((accumCats data).map buildBucket).mergeSort bucketGE := rfl
      rw [hb] at he
      exact List.mem_mergeSort.mp he
    obtain ⟨p, hp, rfl⟩ := List.mem_map.mp he2
    have hs := mem_accumBucket_char dishCategoryOf hp
    refine ⟨?_, ?_, ?_, rfl⟩
    · show p.2.1 = _
      have h1 := congrArg Prod.fst hs
      simp only [buildBucket]
      rw [h1, sum_rowSums_fst]
    · show p.2.2.1 = _
      have h1 := congrArg (fun x => x.2.1) hs
      simp only [buildBucket]
      simp only at h1
      rw [h1, sum_rowSums_cost]
    · show p.2.2.2 = _
      have h1 := congrArg (fun x => x.2.2) hs
      simp only [buildBucket]
      simp only at h1
      rw [h1, sum_rowSums_orders]
  · exact pairwise_mergeSort_bucket _
  · intro e he
    have he2 : e ∈ (accumGroups data).map buildBucket := by
      have hb : (processDetailed data).by_groups =
          ((accumGroups data).map buildBucket).mergeSort bucketGE := rfl
      rw [hb] at he
      exact List.mem_mergeSort.mp he
    obtain ⟨p, hp, rfl⟩ := List.mem_map.mp he2
    have hs := mem_accumBucket_char dishGroupOf hp
    refine ⟨?_, ?_, ?_, rfl⟩
    · show p.2.1 = _
      have h1 := congrArg Prod.fst hs
      simp only [buildBucket]
      rw [h1, sum_rowSums_fst]
    · show p.2.2.1 = _
      have h1 := congrArg (fun x => x.2.1) hs
      simp only [buildBucket]
      simp only at h1
      rw [h1, sum_rowSums_cost]
    · show p.2.2.2 = _
      have h1 := congrArg (fun x => x.2.2) hs
      simp only [buildBucket]
      simp only at h1
      rw [h1, sum_rowSums_orders]
  · exact pairwise_mergeSort_bucket _
  · simp [processDetailed, accumDishes, accumCats, accumGroups, accumA, upsertA,
      c7rows, dishNameOf, dishCategoryOf, dishGroupOf, getField?, rowSums,
      rowRevenue, detailedRowCost, scanCostVal, costCandidates, rowOrdersD, getPy,
      pyOrZero, pyTruthy, pyFloat?, dishUpd, dishIni, bucketUpd, bucketIni,
      buildDish, buildBucket, List.mergeSort_singleton, c7dishX,
      DetailedResult.mk.injEq, DishEntry.mk.injEq, BucketEntry.mk.injEq]
    norm_num

/-- C7 witness: the "X" scenario rows, with the accumulated entry's totals
checked against the filtered sums. -/
theorem C7_detailed_breakdown_witness :
    (processDetailed c7rows).by_dishes = [c7dishX]
    ∧ c7dishX.revenue =
        ((c7rows.filter (fun it => decide (dishNameOf it = c7dishX.name))).map
          rowRevenue).sum := by
  have h := C7_detailed_breakdown c7rows
  have hsc := h.2.2.2.2.2.2
  have hd : (processDetailed c7rows).by_dishes = [c7dishX] := by
    rw [hsc]
  refine ⟨hd, ?_⟩
  have hmem : c7dishX ∈ (processDetailed c7rows).by_dishes := by
    rw [hd]
    exact List.mem_singleton.mpr rfl
  exact (h.1 c7dishX hmem).1
